import Mathlib

/-!
Verification of the structured Parcoursup scraper
(`scrape_parcoursup_structured.py`) against its specification.

The HTML document is modelled as a tree of nodes (tags with a name, an
attribute list and children, plus text leaves), mirroring the
BeautifulSoup tree the script walks.  `soup.find_all(...)` corresponds to
filtering the preorder list of tags, and `tag.find_all_next()` to the
suffix of that preorder list after the tag (BeautifulSoup's
`next_elements` iterator yields the tag's descendants first and then
every later element, which is exactly the preorder suffix).
-/

/-- One node of the parsed HTML document: a text leaf or an element with
a tag name, attributes and children. -/
inductive Node where
  | text : String → Node
  | elem : String → List (String × String) → List Node → Node

mutual

/-- Structural equality on nodes, mirroring BeautifulSoup's `Tag.__eq__`
(same name, same attributes, same contents, recursively).  The script
compares tags with `el == t` inside the collection loops. -/
def Node.beq : Node → Node → Bool
  | .text s, .text t => s == t
  | .elem n1 a1 c1, .elem n2 a2 c2 => n1 == n2 && a1 == a2 && Node.beqList c1 c2
  | _, _ => false

/-- Structural equality on lists of nodes (helper for `Node.beq`). -/
def Node.beqList : List Node → List Node → Bool
  | [], [] => true
  | x :: xs, y :: ys => Node.beq x y && Node.beqList xs ys
  | _, _ => false

end

instance : BEq Node := ⟨Node.beq⟩

/-- Tag name of a node (`""` for a text leaf, like a `NavigableString`
having no name that matches any element test). -/
def Node.name : Node → String
  | .text _ => ""
  | .elem n _ _ => n

/-- Attribute lookup on a node, modelling `tag["attr"]` / `tag.get`. -/
def Node.attr (n : Node) (k : String) : Option String :=
  match n with
  | .text _ => none
  | .elem _ attrs _ => attrs.lookup k

mutual

/-- All raw strings of a node's subtree, in document order
(BeautifulSoup's `strings` iterator). -/
def Node.strings : Node → List String
  | .text s => [s]
  | .elem _ _ cs => Node.stringsList cs

/-- All raw strings of a forest, in document order. -/
def Node.stringsList : List Node → List String
  | [] => []
  | n :: ns => Node.strings n ++ Node.stringsList ns

end

/-- Drop leading and trailing whitespace from a character list
(Python's `str.strip()` on the underlying characters). -/
def stripChars (cs : List Char) : List Char :=
  ((cs.dropWhile Char.isWhitespace).reverse.dropWhile Char.isWhitespace).reverse

/-- Python's `str.strip()`. -/
def stripStr (s : String) : String :=
  String.mk (stripChars s.toList)

/-- The stripped, non-empty strings of a subtree: what
`get_text(sep, strip=True)` joins with the separator. -/
def Node.strippedStrings (n : Node) : List String :=
  (n.strings.map stripStr).filter (· ≠ "")

/-- `tag.get_text(" ", strip=True)`: stripped strings joined by one
space. -/
def Node.getText (n : Node) : String :=
  " ".intercalate n.strippedStrings

/-- Truthiness of `tag.get_text(strip=True)`: the tag has some
non-whitespace text. -/
def Node.hasText (n : Node) : Bool :=
  !n.strippedStrings.isEmpty

mutual

/-- All element nodes of a subtree in preorder (document order), the
node itself included: the traversal order of `soup.find_all`. -/
def Node.tagsIn : Node → List Node
  | .text _ => []
  | .elem n a cs => .elem n a cs :: Node.tagsList cs

/-- All element nodes of a forest in preorder. -/
def Node.tagsList : List Node → List Node
  | [] => []
  | n :: ns => Node.tagsIn n ++ Node.tagsList ns

end

/-- A parsed document is a forest of top-level nodes. -/
abbrev Doc := List Node

/-- `soup.find_all(...)` iteration order: every tag of the document in
document (preorder) order. -/
def allTags (doc : Doc) : List Node :=
  Node.tagsList doc

/-- Split a character stream into maximal non-whitespace words
(Python's `s.split()` with no argument); `cur` holds the current word
reversed. -/
def wordsGo : List Char → List Char → List String
  | [], cur => if cur.isEmpty then [] else [String.mk cur.reverse]
  | c :: cs, cur =>
    if c.isWhitespace then
      if cur.isEmpty then wordsGo cs [] else String.mk cur.reverse :: wordsGo cs []
    else wordsGo cs (c :: cur)

/-- `" ".join(s.split())`: collapse every whitespace run to one space
and strip the ends (the script's `norm_spaces`). -/
def norm_spaces (s : String) : String :=
  " ".intercalate (wordsGo s.toList [])

/-- Sum of the lengths of the accumulated chunks: the script's
`sum(len(x) for x in chunks)`. -/
def sumLens (l : List String) : Nat :=
  (l.map String.length).sum

/-- The tag names treated as headings by both collectors:
`["h1","h2","h3","h4","h5","h6","strong"]`. -/
def headingNames : List String :=
  ["h1", "h2", "h3", "h4", "h5", "h6", "strong"]

/-- Whether a node is a heading-level node. -/
def isHeadingTag (n : Node) : Bool :=
  headingNames.contains n.name

/-- The content-bearing tag names of `collect_section_text`. -/
def contentNamesCollect : List String :=
  ["p", "li", "div", "span", "dd", "td", "th"]

/-- The content-bearing tag names of `extract_text_after_heading`
(no table cells). -/
def contentNamesExtract : List String :=
  ["p", "li", "div", "span", "dd"]

/-- The heading test shared by both locators: a heading-level tag with
non-empty stripped text whose `get_text(" ", strip=True)` matches the
pattern (`m` models `pat.search`). -/
def headMatches (m : String → Bool) (n : Node) : Bool :=
  isHeadingTag n && n.hasText && m n.getText

/-- Scan the document-order tag list for the first heading that
matches; return it together with the remaining suffix, which is exactly
`tag.find_all_next()`'s iteration order. -/
def locateHeading : List Node → (String → Bool) → Option (Node × List Node)
  | [], _ => none
  | t :: rest, m =>
    if headMatches m t then some (t, rest) else locateHeading rest m

/-- Combine a list of pattern alternatives: `any(p.search(txt) for p in pats)`. -/
def anyPat (pats : List (String → Bool)) (s : String) : Bool :=
  pats.any (fun p => p s)

/-- The collection loop of `collect_section_text` (lines 115-125): walk
the elements after the matched heading `t`; skip any element equal to
`t`; stop at a heading; append the raw `get_text(" ", strip=True)` of
content-bearing tags; stop once the accumulated chunk lengths exceed
the budget. -/
def collectChunks (t : Node) (maxChars : Nat) : List Node → List String → List String
  | [], acc => acc
  | el :: rest, acc =>
    if el == t then collectChunks t maxChars rest acc
    else if isHeadingTag el then acc
    else
      let acc' := if contentNamesCollect.contains el.name && el.getText ≠ "" then
          acc ++ [el.getText]
        else acc
      if sumLens acc' > maxChars then acc' else collectChunks t maxChars rest acc'

/-- `collect_section_text(soup, heading_patterns, max_chars=4000)`. -/
def collect_section_text (doc : Doc) (pats : List (String → Bool))
    (maxChars : Nat := 4000) : String :=
  match locateHeading (allTags doc) (anyPat pats) with
  | some (t, rest) => norm_spaces (" ".intercalate (collectChunks t maxChars rest []))
  | none => ""

/-- The collection loop of `extract_text_after_heading` (lines 88-98):
same walk, but the content tag set has no table cells and each chunk is
normalized (`norm_spaces`) before the emptiness test and the append. -/
def extractChunks (t : Node) (maxChars : Nat) : List Node → List String → List String
  | [], acc => acc
  | el :: rest, acc =>
    if el == t then extractChunks t maxChars rest acc
    else if isHeadingTag el then acc
    else
      let acc' := if contentNamesExtract.contains el.name && norm_spaces el.getText ≠ "" then
          acc ++ [norm_spaces el.getText]
        else acc
      if sumLens acc' > maxChars then acc' else extractChunks t maxChars rest acc'

/-- `extract_text_after_heading(soup, heading_regex, max_chars=400)`. -/
def extract_text_after_heading (doc : Doc) (pat : String → Bool)
    (maxChars : Nat := 400) : String :=
  match locateHeading (allTags doc) pat with
  | some (t, rest) => norm_spaces (" ".intercalate (extractChunks t maxChars rest []))
  | none => ""

/-- Numeric value of a digit list read left to right, as Python's
`int()` on the digit string. -/
def digitsVal (ds : List Char) : Nat :=
  ds.foldl (fun n c => n * 10 + (c.toNat - 48)) 0

/-- `parse_int` (lines 53-56): replace non-breaking spaces by spaces,
remove spaces, then, if any digit remains, keep only the digits and
parse them; otherwise return `None`.  The two `str.replace` calls have
single-character patterns, so they are a map plus a filter on the
characters. -/
def parse_int (s : String) : Option Nat :=
  let cs := ((s.toList.map (fun c => if c = ' ' then ' ' else c)).filter (· ≠ ' '))
  if cs.any Char.isDigit then some (digitsVal (cs.filter Char.isDigit)) else none

/-- Characters admitted by the local part of `EMAIL_RE`
(`[A-Z0-9._%+-]` with `re.I`). -/
def isLocalChar (c : Char) : Bool :=
  c.isAlpha || c.isDigit || c == '.' || c == '_' || c == '%' || c == '+' || c == '-'

/-- Characters admitted by the domain part of `EMAIL_RE`
(`[A-Z0-9.-]` with `re.I`). -/
def isDomainChar (c : Char) : Bool :=
  c.isAlpha || c.isDigit || c == '.' || c == '-'

/-- Backtracking step of `EMAIL_RE`'s tail `\.[A-Z]{2,}`: inside the
maximal domain-character run `dom`, find the rightmost dot such that at
least two letters follow it, exactly as the regex engine backtracks the
greedy `[A-Z0-9.-]+` from the right.  Returns the dot position and the
greedy letter run after it. -/
def bestSplit (dom : List Char) : Option (Nat × List Char) :=
  (List.range dom.length).reverse.findSome? (fun j =>
    if 1 ≤ j ∧ dom.get? j = some '.' then
      let letters := (dom.drop (j + 1)).takeWhile Char.isAlpha
      if 2 ≤ letters.length then some (j, letters) else none
    else none)

/-- Try to match `EMAIL_RE` at the start of the character stream;
return the matched text and the characters after the match. -/
def matchEmailAt (l : List Char) : Option (String × List Char) :=
  let loc := l.takeWhile isLocalChar
  if loc.isEmpty then none
  else
    match l.drop loc.length with
    | '@' :: r2 =>
      let dom := r2.takeWhile isDomainChar
      match bestSplit dom with
      | some (j, letters) =>
        some (String.mk (loc ++ '@' :: (dom.take j ++ '.' :: letters)),
              r2.drop (j + 1 + letters.length))
      | none => none
    | _ => none

/-- `re.findall(EMAIL_RE, text)`: scan left to right, emitting each
non-overlapping match and resuming after it; on failure advance one
character.  `fuel` bounds the recursion by the input length (every step
consumes at least one character). -/
def emailScan (fuel : Nat) (l : List Char) : List String :=
  match fuel with
  | 0 => []
  | fuel + 1 =>
    match l with
    | [] => []
    | c :: rest =>
      match matchEmailAt (c :: rest) with
      | some (em, rest') => em :: emailScan fuel rest'
      | none => emailScan fuel rest

/-- All matches of `EMAIL_RE` in a text, in order of occurrence. -/
def findEmails (s : String) : List String :=
  emailScan s.toList.length s.toList

/-- Code-point lexicographic comparison of character lists: Python's
`str` ordering used by `sorted`. -/
def charsLe : List Char → List Char → Bool
  | [], _ => true
  | _ :: _, [] => false
  | a :: as, b :: bs =>
    if a < b then true
    else if b < a then false
    else charsLe as bs

/-- Python's `a <= b` on strings. -/
def pyLe (a b : String) : Bool :=
  charsLe a.toList b.toList

/-- `pyLe` as a relation, for sortedness statements. -/
def pyLeRel (a b : String) : Prop :=
  pyLe a b = true

instance : DecidableRel pyLeRel := fun a b => by
  unfold pyLeRel; infer_instance

/-- The email extractor of `parse_html_fields` (line 190):
`sorted(set(re.findall(EMAIL_RE, text)))` — exact-string
deduplication followed by lexicographic sort. -/
def extractEmails (s : String) : List String :=
  List.insertionSort pyLeRel (findEmails s).dedup

/-- Whether `needle` occurs as a contiguous sublist of the second list. -/
def infixOf (needle : List Char) : List Char → Bool
  | [] => needle.isEmpty
  | c :: t => needle.isPrefixOf (c :: t) || infixOf needle t

/-- Python's `needle in hay` on strings: substring test. -/
def substr (needle hay : String) : Bool :=
  infixOf needle.toList hay.toList

/-- Python's `str.lower()` (ASCII case folding suffices for the
literals the script compares against). -/
def lowerStr (s : String) : String :=
  String.mk (s.toList.map Char.toLower)

/-- Strip the characters of `chars` from both ends of `s`
(Python's `str.strip(" .;")` as used on the language fields). -/
def stripThese (chars : List Char) (s : String) : String :=
  String.mk (((s.toList.dropWhile (chars.contains ·)).reverse.dropWhile
      (chars.contains ·)).reverse)

/-- The stripped, non-empty strings of the whole document. -/
def docStrippedStrings (doc : Doc) : List String :=
  ((Node.stringsList doc).map stripStr).filter (· ≠ "")

/-- `soup.get_text("\n", strip=True)`: the full flattened page text. -/
def docText (doc : Doc) : String :=
  "\n".intercalate (docStrippedStrings doc)

/-- Python's `str.splitlines()` on text built with newline joins. -/
def splitLines (s : String) : List String :=
  s.splitOn "\n"

/-- BeautifulSoup's `tag.string`: follow unique children down to a lone
text node, `None` as soon as a node has several children. -/
def Node.strVal : Node → Option String
  | .text s => some s
  | .elem _ _ [c] => Node.strVal c
  | .elem _ _ _ => none

/-- A cell of the output row: the script stores strings and optional
integers (`places` and friends may be `None`) in the CSV dict. -/
inductive Val where
  | vStr : String → Val
  | vNum : Option Nat → Val
deriving DecidableEq

/-- String a `Val` renders to in the CSV (only the `source_url` column,
always a `vStr`, is ever read back for resume). -/
def Val.asStr : Val → String
  | .vStr s => s
  | .vNum (some n) => toString n
  | .vNum none => ""

/-- An output row, as the mutable dict `row` of the main loop. -/
def Row := String → Val

/-- `row[k] = v`. -/
def setF (r : Row) (k : String) (v : Val) : Row :=
  fun k' => if k' = k then v else r k'

/-- `for k, v in ps: row[k] = v`. -/
def setAll (r : Row) (ps : List (String × Val)) : Row :=
  ps.foldl (fun r p => setF r p.1 p.2) r

/-- Python's `a or b or ... or ""` over dict lookups: the first present,
non-empty value, else the empty string. -/
def firstTruthy : List (Option String) → String
  | [] => ""
  | some s :: rest => if s = "" then firstTruthy rest else s
  | none :: rest => firstTruthy rest

/-- The typed scalar fields `parse_html_fields` extracts from the page
(the dict literal of lines 236-256). -/
structure HtmlFields where
  frais_annee : String
  frais_boursiers : String
  lv1 : String
  lv2 : String
  niveau_francais : String
  places : Option Nat
  voeux_confirmes : Option Nat
  candidats_postules : Option Nat
  propositions : Option Nat
  integres : Option Nat
  onisep_url : String
  catalogue_url : String
  emails_contact : String
  criteres_analyse : String
  chiffres_acces : String
  poursuites_etudes : String
  debouches : String
  contacter_etablissement : String
  titre_bloc : String

/-- The dict literal `parse_html_fields` returns (lines 236-256), in
source order: the mapping the driver folds into the row with
`for k, v in parsed.items(): row[k] = v`. -/
def htmlPairs (f : HtmlFields) : List (String × Val) :=
  [("frais_annee", .vStr f.frais_annee),
   ("frais_boursiers", .vStr f.frais_boursiers),
   ("lv1", .vStr f.lv1),
   ("lv2", .vStr f.lv2),
   ("niveau_francais", .vStr f.niveau_francais),
   ("places", .vNum f.places),
   ("voeux_confirmes", .vNum f.voeux_confirmes),
   ("candidats_postules", .vNum f.candidats_postules),
   ("propositions", .vNum f.propositions),
   ("integres", .vNum f.integres),
   ("onisep_url", .vStr f.onisep_url),
   ("catalogue_url", .vStr f.catalogue_url),
   ("emails_contact", .vStr f.emails_contact),
   ("criteres_analyse", .vStr f.criteres_analyse),
   ("chiffres_acces", .vStr f.chiffres_acces),
   ("poursuites_etudes", .vStr f.poursuites_etudes),
   ("debouches", .vStr f.debouches),
   ("contacter_etablissement", .vStr f.contacter_etablissement),
   ("titre_bloc", .vStr f.titre_bloc)]

/-- The nineteen keys of `parse_html_fields`' result dict. -/
def extractionKeys : List String :=
  ["frais_annee", "frais_boursiers", "lv1", "lv2", "niveau_francais",
   "places", "voeux_confirmes", "candidats_postules", "propositions",
   "integres", "onisep_url", "catalogue_url", "emails_contact",
   "criteres_analyse", "chiffres_acces", "poursuites_etudes",
   "debouches", "contacter_etablissement", "titre_bloc"]

/-- The primitive regular-expression searches of `parse_html_fields`,
kept abstract: each field models the capture group returned by one
specific `re.search` of the script (`none` when the pattern does not
match), and each predicate models one heading regex's `pat.search`.
No claim constrains these patterns' languages, so they are parameters
of the embedding:
`parAnnee` models group 1 of `Par année\s*:?[\s\-]*([0-9\.\s €euros]+)`;
`boursiers` group 1 of `boursier[s]?\s*[:\-]?\s*(.+?)(?:$|\.)`;
`lv1Of`/`lv2Of` group 1 of `Langue vivante 1/2\s*:\s*(.+?)(?:\s\x7b2,\x7d|$)`;
`niveauFrOf` group 1 of `Niveau de français requis.*?:\s*([A-C][12])`;
`placesOf`/`voeuxOf` group 1 of the `(\d[\d\s ]*)\s+places?/vœux...` patterns;
`postulesOf`/`propositionsOf`/`integresOf` group 1 of the three
`candidats ont ...` patterns; `fraisHead`/`languesHead` the two heading
regexes of `extract_text_after_heading`, and the five pattern lists the
heading alternatives of the `collect_section_text` calls. -/
structure RegexEnv where
  parAnnee : String → Option String
  boursiers : String → Option String
  lv1Of : String → Option String
  lv2Of : String → Option String
  niveauFrOf : String → Option String
  placesOf : String → Option String
  voeuxOf : String → Option String
  postulesOf : String → Option String
  propositionsOf : String → Option String
  integresOf : String → Option String
  fraisHead : String → Bool
  languesHead : String → Bool
  criteresPats : List (String → Bool)
  chiffresPats : List (String → Bool)
  poursuitesPats : List (String → Bool)
  debouchesPats : List (String → Bool)
  contacterPats : List (String → Bool)

/-- The anchor-classification fold of `parse_html_fields` (lines
179-187): walk every `<a href=...>` in document order; an anchor whose
href or visible label mentions "onisep" overwrites `onisep_url`, one
mentioning "catalogue" (or an href containing "formations.u-")
overwrites `catalogue_url`; the last match wins. -/
def anchorStep (oc : String × String) (a : Node) : String × String :=
  match a.attr "href" with
  | some href =>
    let label := lowerStr a.getText
    let o' := if substr "onisep" href || substr "onisep" label then href else oc.1
    let c' := if substr "catalogue" label || substr "catalogue" href
        || substr "formations.u-" href then href else oc.2
    (o', c')
  | none => oc

/-- `parse_html_fields(html)` (lines 129-256), over the parsed document
tree: frais block (heading extraction with a line-scan fallback),
langues block, counters on the full text, anchor classification,
emails, title, and the five bounded sections. -/
def parse_html_fields (renv : RegexEnv) (doc : Doc) : HtmlFields :=
  let text := docText doc
  let bloc0 := extract_text_after_heading doc renv.fraisHead
  let bloc_frais := if bloc0 = "" then
      "\n".intercalate ((splitLines text).filter
        (fun l => substr "Frais de scolarité" l || substr "Par année" l))
    else bloc0
  let frais_annee := if bloc_frais = "" then "" else
    match renv.parAnnee bloc_frais with
    | some g => norm_spaces (g.replace "euros" "€")
    | none => ""
  let frais_boursiers := if bloc_frais = "" then "" else
    match renv.boursiers bloc_frais with
    | some g => norm_spaces g
    | none => ""
  let bloc_langues := extract_text_after_heading doc renv.languesHead
  let lv1 := if bloc_langues = "" then "" else
    match renv.lv1Of bloc_langues with
    | some g => stripThese [' ', '.', ';'] g
    | none => ""
  let lv2 := if bloc_langues = "" then "" else
    match renv.lv2Of bloc_langues with
    | some g => stripThese [' ', '.', ';'] g
    | none => ""
  let niveau_fr := if bloc_langues = "" then "" else
    (renv.niveauFrOf bloc_langues).getD ""
  let places := (renv.placesOf text).bind parse_int
  let voeux := (renv.voeuxOf text).bind parse_int
  let postules := (renv.postulesOf text).bind parse_int
  let propositions := (renv.propositionsOf text).bind parse_int
  let integres := (renv.integresOf text).bind parse_int
  let anchors := (allTags doc).filter (fun t => t.name == "a" && (t.attr "href").isSome)
  let urls2 := anchors.foldl anchorStep ("", "")
  let emails := extractEmails text
  let titre := match ((allTags doc).find? (fun t => t.name == "title")).bind Node.strVal with
    | some s => if s = "" then "" else norm_spaces s
    | none => ""
  { frais_annee := frais_annee
    frais_boursiers := frais_boursiers
    lv1 := lv1
    lv2 := lv2
    niveau_francais := niveau_fr
    places := places
    voeux_confirmes := voeux
    candidats_postules := postules
    propositions := propositions
    integres := integres
    onisep_url := urls2.1
    catalogue_url := urls2.2
    emails_contact := if emails.isEmpty then "" else ";".intercalate emails
    criteres_analyse := collect_section_text doc renv.criteresPats
    chiffres_acces := collect_section_text doc renv.chiffresPats
    poursuites_etudes := collect_section_text doc renv.poursuitesPats
    debouches := collect_section_text doc renv.debouchesPats
    contacter_etablissement := collect_section_text doc renv.contacterPats
    titre_bloc := titre }

/-- Outcome of `session.get(url, timeout=25)` for one URL: a `Timeout`,
another `RequestException` (carrying its type name), or a response with
status code, `Content-Type` header and parsed body. -/
inductive FetchOutcome where
  | timeout
  | reqError (excName : String)
  | resp (status : Nat) (contentType : String) (body : Doc)

/-- The per-URL environment of one run: `resolve` is the outcome of
`get_g_ta_cod` (which never raises outward: the trimmed first matching
query value, or `None`); `od` the dict `opendata_fetch` returns (empty
on any lookup failure — the function swallows every exception and
non-200 status); `fetch` the transport outcome; `parse` the outcome of
calling `parse_html_fields` on the fetched body (`.error` when the call
raises, carrying the formatted message). -/
structure Env where
  resolve : String → Option String
  od : String → List (String × String)
  fetch : String → FetchOutcome
  parse : Doc → Except String HtmlFields

/-- The nine OpenData row assignments (lines 361-369), with Python's
`a or b or ""` falsy-coalescing over dict lookups. -/
def odFieldWrites (od : List (String × String)) : List (String × Val) :=
  [("od_libelle_formation",
      .vStr (firstTruthy [od.lookup "libelle_formation", od.lookup "libelle_long"])),
   ("od_libelle_etablissement",
      .vStr (firstTruthy [od.lookup "libelle_etablissement", od.lookup "etablissement"])),
   ("od_diplome", .vStr (firstTruthy [od.lookup "type_de_formation", od.lookup "diplome"])),
   ("od_secteur", .vStr (firstTruthy [od.lookup "secteur"])),
   ("od_academie", .vStr (firstTruthy [od.lookup "academie", od.lookup "nom_academie"])),
   ("od_departement",
      .vStr (firstTruthy [od.lookup "departement", od.lookup "nom_departement"])),
   ("od_commune", .vStr (firstTruthy [od.lookup "commune"])),
   ("od_code_postal", .vStr (firstTruthy [od.lookup "code_postal"])),
   ("od_uai", .vStr (firstTruthy [od.lookup "uai"]))]

/-- The keys of the nine OpenData columns. -/
def odKeys : List String :=
  ["od_libelle_formation", "od_libelle_etablissement", "od_diplome",
   "od_secteur", "od_academie", "od_departement", "od_commune",
   "od_code_postal", "od_uai"]

/-- The row before the page fetch (lines 351-369): a row of empty
strings with `source_url` set, `g_ta_cod` recorded, and the OpenData
enrichment applied when the identifier is truthy and the lookup
returned a non-empty dict. -/
def rowBase (env : Env) (url : String) : Row :=
  let r0 := setF (fun _ => .vStr "") "source_url" (.vStr url)
  let gid := env.resolve url
  let r1 := setF r0 "g_ta_cod" (.vStr (gid.getD ""))
  let od := match gid with
    | some g => if g = "" then [] else env.od g
    | none => []
  if od.isEmpty then r1 else setAll r1 (odFieldWrites od)

/-- Per-URL body of the main loop (lines 351-390): the pre-fetch row,
then the fetch: a `Timeout` or `RequestException` fills `error`, a
response records `http_status` and, only when the status is 200 and the
Content-Type reports HTML, folds the parsed fields into the row (a
raising parse fills `error` instead).  Every branch ends with the one
`wr.writerow(row)`. -/
def processUrl (env : Env) (url : String) : Row :=
  match env.fetch url with
  | .timeout => setF (rowBase env url) "error" (.vStr "Timeout")
  | .reqError n => setF (rowBase env url) "error" (.vStr ("HTTP error: " ++ n))
  | .resp status ct body =>
    let r3 := setF (rowBase env url) "http_status" (.vNum (some status))
    if status == 200 && substr "text/html" (lowerStr ct) then
      match env.parse body with
      | .ok fields => setAll r3 (htmlPairs fields)
      | .error e => setF r3 "error" (.vStr ("Parse error: " ++ e))
    else r3

/-- The main loop (lines 347-390): skip URLs already in the processed
set, append exactly one row for every other URL. -/
def mainLoop (env : Env) (done : List String) : List String → List Row
  | [] => []
  | u :: rest =>
    if done.contains u then mainLoop env done rest
    else processUrl env u :: mainLoop env done rest

/-- First-occurrence deduplication, as pandas `drop_duplicates()` on
the URL column; `seen` accumulates the values already kept. -/
def dedupFirstGo (seen : List String) : List String → List String
  | [] => []
  | x :: xs =>
    if seen.contains x then dedupFirstGo seen xs
    else x :: dedupFirstGo (x :: seen) xs

/-- URL-column ingestion (lines 280-287): stringify, strip, and drop
duplicates keeping first occurrences. -/
def loadUrls (col : List String) : List String :=
  dedupFirstGo [] (col.map stripStr)

/-- The `source_url` cell of a row, as the resume reader
(`pd.read_csv(..., usecols=["source_url"])`, line 334) recovers it. -/
def srcOf (r : Row) : String :=
  (r "source_url").asStr

/-- One whole run over the output file (lines 330-390): with resume
requested and an existing file, its `source_url` column becomes the
processed set and new rows are appended after the old ones; otherwise
the file is rewritten from scratch with no processed set. -/
def runFile (env : Env) (col : List String) (resume : Bool)
    (prev : Option (List Row)) : List Row :=
  let urls := loadUrls col
  match prev, resume with
  | some p, true => p ++ mainLoop env (p.map srcOf) urls
  | _, _ => mainLoop env [] urls

/-- Length of the last accumulated chunk (0 for an empty accumulator):
the "single final appended unit" of the budget-cap property. -/
def lastLen (l : List String) : Nat :=
  match l.getLast? with
  | some s => s.length
  | none => 0

/-- A pattern matching exactly the heading text "Match" (a concrete
stand-in for one compiled heading regex). -/
def patIsMatch : String → Bool := fun s => s == "Match"

/-- Concrete document for the boundary claim: the matched heading is
followed by a `div` container whose children are a paragraph, the next
`h2` heading, and a further paragraph. -/
def docC2 : Doc :=
  [.elem "h2" [] [.text "Match"],
   .elem "div" [] [.elem "p" [] [.text "a"],
                   .elem "h2" [] [.text "Next"],
                   .elem "p" [] [.text "b"]]]

/-- The heading matched in `docC2`. -/
def headC2 : Node := .elem "h2" [] [.text "Match"]

/-- The `div` container of `docC2`. -/
def divC2 : Node :=
  .elem "div" [] [.elem "p" [] [.text "a"],
                  .elem "h2" [] [.text "Next"],
                  .elem "p" [] [.text "b"]]

/-- The first paragraph of `docC2`. -/
def pAC2 : Node := .elem "p" [] [.text "a"]

/-- The boundary heading of `docC2`: the first heading-level node
following the matched heading in document order. -/
def nextHeadC2 : Node := .elem "h2" [] [.text "Next"]

/-- The second paragraph of `docC2`. -/
def pBC2 : Node := .elem "p" [] [.text "b"]

/-- Concrete document for the budget claim: a matched heading followed
by four one-character paragraphs. -/
def docC3 : Doc :=
  [.elem "h2" [] [.text "Match"],
   .elem "p" [] [.text "a"], .elem "p" [] [.text "a"],
   .elem "p" [] [.text "a"], .elem "p" [] [.text "a"]]

/-- The page text of the email-extraction example. -/
def emailText : String := "Contact: a@ex.fr, A@EX.FR, b@ex.org"

/-- A concrete environment whose three URLs exercise a fetch timeout,
an HTTP 500 response and a non-HTML 200 response. -/
def envErr : Env :=
  { resolve := fun _ => none
    od := fun _ => []
    fetch := fun u =>
      if u = "u1" then .timeout
      else if u = "u2" then .resp 500 "text/html; charset=utf-8" []
      else .resp 200 "application/json" []
    parse := fun _ => .error "unreached" }

/-- A concrete extracted-field record for the merge witness. -/
def fieldsC6 : HtmlFields :=
  { frais_annee := "3000 €"
    frais_boursiers := "0 €"
    lv1 := "Anglais"
    lv2 := ""
    niveau_francais := "B2"
    places := some 25
    voeux_confirmes := some 40
    candidats_postules := none
    propositions := none
    integres := none
    onisep_url := "https://onisep.example"
    catalogue_url := ""
    emails_contact := "x@ex.fr"
    criteres_analyse := "Dossier"
    chiffres_acces := ""
    poursuites_etudes := ""
    debouches := ""
    contacter_etablissement := ""
    titre_bloc := "Titre" }

/-- A concrete environment where both the authoritative lookup and the
page extraction succeed for URL "u". -/
def envC6 : Env :=
  { resolve := fun _ => some "123"
    od := fun _ => [("secteur", "Public"), ("commune", "Lyon"), ("libelle_long", "Licence Info")]
    fetch := fun _ => .resp 200 "text/html" []
    parse := fun _ => .ok fieldsC6 }

/-- Concrete document for the locator witness: a paragraph, then the
matching heading. -/
def docC7 : Doc :=
  [.elem "p" [] [.text "intro"], .elem "h2" [] [.text "Match"]]

/-- A concrete environment whose fetch times out for every URL
(resolution and lookup also fail), used for the driver witnesses. -/
def envT : Env :=
  { resolve := fun _ => none
    od := fun _ => []
    fetch := fun _ => .timeout
    parse := fun _ => .error "unreached" }

lemma setF_same (r : Row) (k : String) (v : Val) : setF r k v k = v := by
  simp [setF]

lemma setF_ne (r : Row) (k k' : String) (v : Val) (h : k' ≠ k) : setF r k v k' = r k' := by
  simp [setF, h]

lemma setAll_not_mem (ps : List (String × Val)) (r : Row) (k : String)
    (h : ¬ k ∈ ps.map Prod.fst) : setAll r ps k = r k := by
  induction ps generalizing r with
  | nil => rfl
  | cons p ps ih =>
    simp only [List.map_cons, List.mem_cons, not_or] at h
    show setAll (setF r p.1 p.2) ps k = r k
    rw [ih _ h.2, setF_ne _ _ _ _ h.1]

lemma htmlPairs_keys (f : HtmlFields) : (htmlPairs f).map Prod.fst = extractionKeys := rfl

lemma odFieldWrites_keys (od : List (String × String)) :
    (odFieldWrites od).map Prod.fst = odKeys := rfl

lemma odStep_not_mem (r : Row) (od : List (String × String)) (k : String)
    (h : ¬ k ∈ odKeys) :
    (if od.isEmpty then r else setAll r (odFieldWrites od)) k = r k := by
  split
  · rfl
  · exact setAll_not_mem _ _ _ (by rw [odFieldWrites_keys]; exact h)

lemma rowBase_not_od (env : Env) (u k : String) (h : ¬ k ∈ odKeys) :
    rowBase env u k
      = setF (setF (fun _ => .vStr "") "source_url" (.vStr u)) "g_ta_cod"
          (.vStr ((env.resolve u).getD "")) k := by
  unfold rowBase
  cases env.resolve u with
  | none => simp only [odStep_not_mem _ _ _ h, Option.getD_none]
  | some g =>
    by_cases hg : g = "" <;> simp only [hg, if_true, if_false, odStep_not_mem _ _ _ h]

lemma rowBase_src (env : Env) (u : String) : rowBase env u "source_url" = .vStr u := by
  rw [rowBase_not_od env u _ (by decide), setF_ne _ _ _ _ (by decide), setF_same]

lemma rowBase_blank (env : Env) (u k : String) (h1 : ¬ k ∈ odKeys)
    (h2 : k ≠ "source_url") (h3 : k ≠ "g_ta_cod") :
    rowBase env u k = .vStr "" := by
  rw [rowBase_not_od env u _ h1, setF_ne _ _ _ _ h3, setF_ne _ _ _ _ h2]

lemma processUrl_src (env : Env) (u : String) : processUrl env u "source_url" = .vStr u := by
  cases hf : env.fetch u with
  | timeout =>
    simp only [processUrl, hf]
    rw [setF_ne _ _ _ _ (by decide), rowBase_src]
  | reqError n =>
    simp only [processUrl, hf]
    rw [setF_ne _ _ _ _ (by decide), rowBase_src]
  | resp status ct body =>
    simp only [processUrl, hf]
    split
    · cases hp : env.parse body with
      | ok fields =>
        simp only [hp]
        rw [setAll_not_mem _ _ _ (by rw [htmlPairs_keys]; decide),
          setF_ne _ _ _ _ (by decide), rowBase_src]
      | error e =>
        simp only [hp]
        rw [setF_ne _ _ _ _ (by decide), setF_ne _ _ _ _ (by decide), rowBase_src]
    · rw [setF_ne _ _ _ _ (by decide), rowBase_src]

lemma srcOf_processUrl (env : Env) (u : String) : srcOf (processUrl env u) = u := by
  simp [srcOf, processUrl_src, Val.asStr]

lemma mainLoop_eq (env : Env) (done : List String) (urls : List String) :
    mainLoop env done urls
      = (urls.filter (fun u => !done.contains u)).map (processUrl env) := by
  induction urls with
  | nil => rfl
  | cons u rest ih =>
    rw [mainLoop]
    by_cases h : u ∈ done
    · simp [h, ih]
    · simp [h, ih]

lemma map_src_map (env : Env) (l : List String) :
    (l.map (processUrl env)).map srcOf = l := by
  induction l with
  | nil => rfl
  | cons x xs ih => simp [srcOf_processUrl, ih]

lemma mainLoop_src (env : Env) (done : List String) (urls : List String) :
    (mainLoop env done urls).map srcOf = urls.filter (fun u => !done.contains u) := by
  rw [mainLoop_eq]; exact map_src_map env _

lemma mainLoop_nil_done (env : Env) (done : List String) (urls : List String)
    (h : ∀ u ∈ urls, done.contains u = true) : mainLoop env done urls = [] := by
  rw [mainLoop_eq]
  have hf : urls.filter (fun u => !done.contains u) = [] := by
    rw [List.filter_eq_nil_iff]
    intro a ha
    have : a ∈ done := by simpa using h a ha
    simp [this]
  rw [hf]; rfl

lemma mem_dedupFirstGo (l : List String) :
    ∀ seen x, x ∈ dedupFirstGo seen l → x ∈ l ∧ ¬ x ∈ seen := by
  induction l with
  | nil => intro seen x hx; simp [dedupFirstGo] at hx
  | cons y ys ih =>
    intro seen x hx
    rw [dedupFirstGo] at hx
    by_cases h : seen.contains y
    · rw [if_pos h] at hx
      have := ih seen x hx
      exact ⟨List.mem_cons_of_mem _ this.1, this.2⟩
    · rw [if_neg h] at hx
      cases hx with
      | head =>
        refine ⟨List.mem_cons_self _ _, ?_⟩
        intro hmem
        exact h (by simp [hmem])
      | tail b h2 =>
        have := ih _ x h2
        simp only [List.mem_cons, not_or] at this
        exact ⟨List.mem_cons_of_mem _ this.1, this.2.2⟩

lemma nodup_dedupFirstGo (l : List String) : ∀ seen, (dedupFirstGo seen l).Nodup := by
  induction l with
  | nil => intro seen; simp [dedupFirstGo]
  | cons y ys ih =>
    intro seen
    rw [dedupFirstGo]
    by_cases h : seen.contains y
    · simp only [h, if_true]; exact ih seen
    · simp only [h, if_false]
      refine List.Nodup.cons ?_ (ih _)
      intro hmem
      have := (mem_dedupFirstGo ys _ y hmem).2
      exact this (List.mem_cons_self _ _)

lemma sumLens_concat (l : List String) (s : String) :
    sumLens (l ++ [s]) = sumLens l + s.length := by
  simp [sumLens]

lemma lastLen_concat (l : List String) (s : String) : lastLen (l ++ [s]) = s.length := by
  simp [lastLen, List.getLast?_concat]

lemma collectChunks_cons_skip (t : Node) (mc : Nat) (el : Node) (rest : List Node)
    (acc : List String) (h : (el == t) = true) :
    collectChunks t mc (el :: rest) acc = collectChunks t mc rest acc := by
  rw [collectChunks, if_pos h]

lemma collectChunks_cons_stop (t : Node) (mc : Nat) (el : Node) (rest : List Node)
    (acc : List String) (h1 : (el == t) = false) (h2 : isHeadingTag el = true) :
    collectChunks t mc (el :: rest) acc = acc := by
  rw [collectChunks, if_neg (by rw [h1]; exact Bool.false_ne_true), if_pos h2]

lemma collectChunks_cons_go (t : Node) (mc : Nat) (el : Node) (rest : List Node)
    (acc : List String) (h1 : (el == t) = false) (h2 : isHeadingTag el = false) :
    collectChunks t mc (el :: rest) acc
      = (let acc' := if contentNamesCollect.contains el.name && el.getText ≠ "" then
            acc ++ [el.getText]
          else acc
         if sumLens acc' > mc then acc' else collectChunks t mc rest acc') := by
  rw [collectChunks, if_neg (by rw [h1]; exact Bool.false_ne_true),
    if_neg (by rw [h2]; exact Bool.false_ne_true)]

lemma extractChunks_cons_skip (t : Node) (mc : Nat) (el : Node) (rest : List Node)
    (acc : List String) (h : (el == t) = true) :
    extractChunks t mc (el :: rest) acc = extractChunks t mc rest acc := by
  rw [extractChunks, if_pos h]

lemma extractChunks_cons_stop (t : Node) (mc : Nat) (el : Node) (rest : List Node)
    (acc : List String) (h1 : (el == t) = false) (h2 : isHeadingTag el = true) :
    extractChunks t mc (el :: rest) acc = acc := by
  rw [extractChunks, if_neg (by rw [h1]; exact Bool.false_ne_true), if_pos h2]

lemma extractChunks_cons_go (t : Node) (mc : Nat) (el : Node) (rest : List Node)
    (acc : List String) (h1 : (el == t) = false) (h2 : isHeadingTag el = false) :
    extractChunks t mc (el :: rest) acc
      = (let acc' := if contentNamesExtract.contains el.name && norm_spaces el.getText ≠ "" then
            acc ++ [norm_spaces el.getText]
          else acc
         if sumLens acc' > mc then acc' else extractChunks t mc rest acc') := by
  rw [extractChunks, if_neg (by rw [h1]; exact Bool.false_ne_true),
    if_neg (by rw [h2]; exact Bool.false_ne_true)]

lemma collectChunks_takeWhile (t : Node) (mc : Nat) :
    ∀ els acc, collectChunks t mc els acc
      = collectChunks t mc (els.takeWhile (fun el => el == t || !isHeadingTag el)) acc := by
  intro els
  induction els with
  | nil => intro acc; rfl
  | cons el rest ih =>
    intro acc
    by_cases h1 : (el == t) = true
    · have hp : (el == t || !isHeadingTag el) = true := by rw [h1]; rfl
      rw [List.takeWhile_cons, if_pos hp,
        collectChunks_cons_skip t mc el rest acc h1,
        collectChunks_cons_skip t mc el _ acc h1]
      exact ih acc
    · have h1f : (el == t) = false := (Bool.not_eq_true _).mp h1
      by_cases h2 : isHeadingTag el = true
      · have hp : ¬((el == t || !isHeadingTag el) = true) := by
          rw [h1f, h2]; exact Bool.false_ne_true
        rw [List.takeWhile_cons, if_neg hp,
          collectChunks_cons_stop t mc el rest acc h1f h2]
        rfl
      · have h2f : isHeadingTag el = false := (Bool.not_eq_true _).mp h2
        have hp : (el == t || !isHeadingTag el) = true := by rw [h1f, h2f]; rfl
        rw [List.takeWhile_cons, if_pos hp,
          collectChunks_cons_go t mc el rest acc h1f h2f,
          collectChunks_cons_go t mc el _ acc h1f h2f]
        simp only []
        split
        all_goals split
        all_goals (first | rfl | exact ih _)

lemma extractChunks_takeWhile (t : Node) (mc : Nat) :
    ∀ els acc, extractChunks t mc els acc
      = extractChunks t mc (els.takeWhile (fun el => el == t || !isHeadingTag el)) acc := by
  intro els
  induction els with
  | nil => intro acc; rfl
  | cons el rest ih =>
    intro acc
    by_cases h1 : (el == t) = true
    · have hp : (el == t || !isHeadingTag el) = true := by rw [h1]; rfl
      rw [List.takeWhile_cons, if_pos hp,
        extractChunks_cons_skip t mc el rest acc h1,
        extractChunks_cons_skip t mc el _ acc h1]
      exact ih acc
    · have h1f : (el == t) = false := (Bool.not_eq_true _).mp h1
      by_cases h2 : isHeadingTag el = true
      · have hp : ¬((el == t || !isHeadingTag el) = true) := by
          rw [h1f, h2]; exact Bool.false_ne_true
        rw [List.takeWhile_cons, if_neg hp,
          extractChunks_cons_stop t mc el rest acc h1f h2]
        rfl
      · have h2f : isHeadingTag el = false := (Bool.not_eq_true _).mp h2
        have hp : (el == t || !isHeadingTag el) = true := by rw [h1f, h2f]; rfl
        rw [List.takeWhile_cons, if_pos hp,
          extractChunks_cons_go t mc el rest acc h1f h2f,
          extractChunks_cons_go t mc el _ acc h1f h2f]
        simp only []
        split
        all_goals split
        all_goals (first | rfl | exact ih _)

lemma collectChunks_budget (t : Node) (mc : Nat) :
    ∀ els acc, sumLens acc ≤ mc →
      sumLens (collectChunks t mc els acc) ≤ mc + lastLen (collectChunks t mc els acc) := by
  intro els
  induction els with
  | nil => intro acc h; exact le_trans h (Nat.le_add_right _ _)
  | cons el rest ih =>
    intro acc hacc
    rw [collectChunks]
    by_cases h1 : (el == t) = true
    · rw [if_pos h1]; exact ih acc hacc
    · rw [if_neg h1]
      by_cases h2 : isHeadingTag el = true
      · rw [if_pos h2]; exact le_trans hacc (Nat.le_add_right _ _)
      · rw [if_neg h2]
        simp only []
        by_cases h3 : (contentNamesCollect.contains el.name && el.getText ≠ "") = true
        · rw [if_pos h3]
          by_cases h4 : sumLens (acc ++ [el.getText]) > mc
          · rw [if_pos h4, sumLens_concat, lastLen_concat]
            exact Nat.add_le_add_right hacc _
          · rw [if_neg h4]
            exact ih _ (Nat.le_of_not_lt h4)
        · rw [if_neg h3, if_neg (Nat.not_lt.mpr hacc)]
          exact ih _ hacc

lemma extractChunks_budget (t : Node) (mc : Nat) :
    ∀ els acc, sumLens acc ≤ mc →
      sumLens (extractChunks t mc els acc) ≤ mc + lastLen (extractChunks t mc els acc) := by
  intro els
  induction els with
  | nil => intro acc h; exact le_trans h (Nat.le_add_right _ _)
  | cons el rest ih =>
    intro acc hacc
    rw [extractChunks]
    by_cases h1 : (el == t) = true
    · rw [if_pos h1]; exact ih acc hacc
    · rw [if_neg h1]
      by_cases h2 : isHeadingTag el = true
      · rw [if_pos h2]; exact le_trans hacc (Nat.le_add_right _ _)
      · rw [if_neg h2]
        simp only []
        by_cases h3 : (contentNamesExtract.contains el.name && norm_spaces el.getText ≠ "") = true
        · rw [if_pos h3]
          by_cases h4 : sumLens (acc ++ [norm_spaces el.getText]) > mc
          · rw [if_pos h4, sumLens_concat, lastLen_concat]
            exact Nat.add_le_add_right hacc _
          · rw [if_neg h4]
            exact ih _ (Nat.le_of_not_lt h4)
        · rw [if_neg h3, if_neg (Nat.not_lt.mpr hacc)]
          exact ih _ hacc

lemma locateHeading_some (m : String → Bool) :
    ∀ L t rest, locateHeading L m = some (t, rest) →
      ∃ pre, L = pre ++ t :: rest ∧ headMatches m t = true
        ∧ ∀ x ∈ pre, headMatches m x = false := by
  intro L
  induction L with
  | nil => intro t rest h; simp [locateHeading] at h
  | cons a L ih =>
    intro t rest h
    rw [locateHeading] at h
    by_cases hm : headMatches m a = true
    · rw [if_pos hm] at h
      have h' := Option.some.inj h
      obtain ⟨rfl, rfl⟩ := Prod.mk.inj h'
      exact ⟨[], rfl, hm, by intro x hx; cases hx⟩
    · rw [if_neg hm] at h
      obtain ⟨pre, hL, hmt, hpre⟩ := ih t rest h
      refine ⟨a :: pre, by rw [hL]; rfl, hmt, ?_⟩
      intro x hx
      cases hx with
      | head => exact Bool.not_eq_true _ |>.mp hm
      | tail b h2 => exact hpre x h2

lemma locateHeading_none (m : String → Bool) :
    ∀ L, locateHeading L m = none ↔ ∀ x ∈ L, headMatches m x = false := by
  intro L
  induction L with
  | nil => simp [locateHeading]
  | cons a L ih =>
    rw [locateHeading]
    by_cases hm : headMatches m a = true
    · rw [if_pos hm]
      simp only [List.mem_cons]
      constructor
      · intro h; cases h
      · intro h
        have := h a (Or.inl rfl)
        rw [hm] at this
        cases this
    · rw [if_neg hm]
      rw [ih]
      constructor
      · intro h x hx
        cases hx with
        | head => exact Bool.not_eq_true _ |>.mp hm
        | tail b h2 => exact h x h2
      · intro h x hx
        exact h x (List.mem_cons_of_mem _ hx)


lemma charsLe_total : ∀ as bs, charsLe as bs = true ∨ charsLe bs as = true := by
  intro as
  induction as with
  | nil => intro bs; left; rfl
  | cons a as ih =>
    intro bs
    cases bs with
    | nil => right; rfl
    | cons b bs =>
      rcases lt_trichotomy a b with h | h | h
      · left; rw [charsLe, if_pos h]
      · subst h
        rcases ih bs with h2 | h2
        · left; rw [charsLe, if_neg (lt_irrefl a), if_neg (lt_irrefl a)]; exact h2
        · right; rw [charsLe, if_neg (lt_irrefl a), if_neg (lt_irrefl a)]; exact h2
      · right; rw [charsLe, if_pos h]

lemma charsLe_trans :
    ∀ as bs cs, charsLe as bs = true → charsLe bs cs = true → charsLe as cs = true := by
  intro as
  induction as with
  | nil => intro bs cs _ _; rfl
  | cons a as ih =>
    intro bs cs h1 h2
    cases bs with
    | nil => rw [charsLe] at h1; cases h1
    | cons b bs =>
      cases cs with
      | nil => rw [charsLe] at h2; cases h2
      | cons c cs =>
        rw [charsLe] at h1 h2 ⊢
        rcases lt_trichotomy a b with hab | hab | hab
        · rcases lt_trichotomy b c with hbc | hbc | hbc
          · rw [if_pos (lt_trans hab hbc)]
          · subst hbc; rw [if_pos hab]
          · rw [if_pos hbc, if_neg (not_lt_of_lt hbc)] at h2; cases h2
        · subst hab
          rcases lt_trichotomy a c with hac | hac | hac
          · rw [if_pos hac]
          · subst hac
            rw [if_neg (lt_irrefl a), if_neg (lt_irrefl a)] at h1 h2 ⊢
            exact ih _ _ h1 h2
          · rw [if_pos hac, if_neg (not_lt_of_lt hac)] at h2; cases h2
        · rw [if_pos hab, if_neg (not_lt_of_lt hab)] at h1; cases h1

lemma extractEmails_sorted (s : String) : (extractEmails s).Sorted pyLeRel := by
  haveI : IsTotal String pyLeRel := ⟨fun a b => charsLe_total _ _⟩
  haveI : IsTrans String pyLeRel := ⟨fun a b c => charsLe_trans _ _ _⟩
  exact List.sorted_insertionSort _ _

lemma extractEmails_perm (s : String) :
    List.Perm (extractEmails s) (findEmails s).dedup :=
  List.perm_insertionSort _ _

lemma extractEmails_nodup (s : String) : (extractEmails s).Nodup :=
  (extractEmails_perm s).nodup_iff.mpr (List.nodup_dedup _)

lemma extractEmails_mem (s : String) (e : String) :
    e ∈ extractEmails s ↔ e ∈ findEmails s :=
  ((extractEmails_perm s).mem_iff).trans List.mem_dedup

lemma any_digit_clean (cs : List Char) :
    (((cs.map (fun c => if c = ' ' then ' ' else c)).filter (· ≠ ' ')).any Char.isDigit)
      = cs.any Char.isDigit := by
  induction cs with
  | nil => rfl
  | cons c t ih =>
    rw [List.map_cons, List.filter_cons]
    by_cases h : c = ' '
    · rw [if_pos h, if_neg (by decide), ih, List.any_cons, h]
      rw [(by decide : Char.isDigit ' ' = false), Bool.false_or]
    · rw [if_neg h]
      by_cases h2 : c = ' '
      · subst h2
        rw [if_neg (by decide), ih, List.any_cons]
        rw [(by decide : Char.isDigit ' ' = false), Bool.false_or]
      · rw [if_pos (by simp [h2]), List.any_cons, List.any_cons, ih]

lemma parse_int_none_iff (s : String) :
    parse_int s = none ↔ ∀ c ∈ s.toList, c.isDigit = false := by
  have hmain := any_digit_clean s.toList
  unfold parse_int
  by_cases h : s.toList.any Char.isDigit = true
  · rw [if_pos (by rw [hmain]; exact h)]
    constructor
    · intro hx; exact absurd hx (by simp)
    · intro hall
      obtain ⟨c, hc, hd⟩ := List.any_eq_true.mp h
      rw [hall c hc] at hd
      cases hd
  · rw [if_neg (by rw [hmain]; exact h)]
    have hfalse : s.toList.any Char.isDigit = false := (Bool.not_eq_true _).mp h
    constructor
    · intro _ c hc
      have := List.any_eq_false.mp hfalse c hc
      exact (Bool.not_eq_true _).mp this
    · intro _; rfl

lemma rowBase_od_vals (env : Env) (u g : String) (hres : env.resolve u = some g)
    (hg : g ≠ "") (hod : (env.od g).isEmpty = false) (k : String) :
    rowBase env u k
      = setAll (setF (setF (fun _ => .vStr "") "source_url" (.vStr u)) "g_ta_cod" (.vStr g))
          (odFieldWrites (env.od g)) k := by
  unfold rowBase
  rw [hres]
  simp only [Option.getD_some]
  rw [if_neg hg, if_neg (by rw [hod]; exact Bool.false_ne_true)]

lemma processUrl_full (env : Env) (u ct : String) (body : Doc) (fields : HtmlFields)
    (hfetch : env.fetch u = .resp 200 ct body)
    (hct : substr "text/html" (lowerStr ct) = true)
    (hparse : env.parse body = .ok fields) :
    processUrl env u
      = setAll (setF (rowBase env u) "http_status" (.vNum (some 200))) (htmlPairs fields) := by
  unfold processUrl
  rw [hfetch]
  simp only []
  rw [if_pos (by rw [hct]; rfl), hparse]

lemma processUrl_timeout (env : Env) (u : String) (h : env.fetch u = .timeout) :
    processUrl env u = setF (rowBase env u) "error" (.vStr "Timeout") := by
  unfold processUrl
  rw [h]

lemma processUrl_noParse (env : Env) (u ct : String) (status : Nat) (body : Doc)
    (h : env.fetch u = .resp status ct body)
    (hcond : (status == 200 && substr "text/html" (lowerStr ct)) = false) :
    processUrl env u = setF (rowBase env u) "http_status" (.vNum (some status)) := by
  unfold processUrl
  rw [h]
  simp only []
  rw [if_neg (by rw [hcond]; exact Bool.false_ne_true)]

/-- C1: for every input URL list and every per-URL outcome environment
(resolution failure, lookup failure, fetch timeout, HTTP error status,
non-HTML content type, or a raising parse), the main loop emits exactly
one row per URL not in the processed set — the emitted rows are
precisely the per-URL rows of the non-skipped URLs in input order, with
matching `source_url` — and, being total in the outcome environment, it
never aborts the run because of a single URL. -/
theorem c1_one_row_per_url (env : Env) (done urls : List String) :
    mainLoop env done urls = (urls.filter (fun u => !done.contains u)).map (processUrl env)
    ∧ (mainLoop env done urls).map srcOf = urls.filter (fun u => !done.contains u)
    ∧ (mainLoop env done urls).length = (urls.filter (fun u => !done.contains u)).length :=
  ⟨mainLoop_eq env done urls, mainLoop_src env done urls, by rw [mainLoop_eq]; simp⟩

/-- C2 counterexample: in `docC2` the matched heading is followed (in
document order) by a `div` container, then a paragraph, then the next
heading `nextHeadC2` with text "Next".  The collector's output
"a Next b a" contains "Next", text that originates only from the
boundary heading itself — a node at the next heading-level node — so
the claim that no text from a node at or after the next heading is
included is false: the `div` container precedes the boundary heading
but its `get_text` includes its whole subtree, the boundary heading and
the paragraph after it included. -/
theorem c2_counterexample :
    collect_section_text docC2 [patIsMatch] 4000 = "a Next b a"
    ∧ locateHeading (allTags docC2) (anyPat [patIsMatch])
        = some (headC2, [divC2, pAC2, nextHeadC2, pBC2])
    ∧ isHeadingTag nextHeadC2 = true
    ∧ Node.getText nextHeadC2 = "Next"
    ∧ substr "Next" (collect_section_text docC2 [patIsMatch] 4000) = true :=
  ⟨rfl, rfl, rfl, rfl, rfl⟩

/-- C2 amended: the collection loops of both collectors never append a
chunk for a node at or after the first following heading-level node:
the collected chunks depend only on the prefix of the walk before that
boundary (nodes equal to the matched heading being skipped, as the code
does).  Text located after the boundary can still appear, but only
through the `get_text` of a container node that starts before the
boundary. -/
theorem c2_amended :
    (∀ (t : Node) (mc : Nat) (els : List Node) (acc : List String),
       collectChunks t mc els acc
         = collectChunks t mc (els.takeWhile (fun el => el == t || !isHeadingTag el)) acc)
    ∧ (∀ (t : Node) (mc : Nat) (els : List Node) (acc : List String),
       extractChunks t mc els acc
         = extractChunks t mc (els.takeWhile (fun el => el == t || !isHeadingTag el)) acc) :=
  ⟨fun t mc els acc => collectChunks_takeWhile t mc els acc,
   fun t mc els acc => extractChunks_takeWhile t mc els acc⟩

/-- C3 counterexample: with budget 3, the collector on `docC3` appends
the four one-character chunks "a" (after the fourth append the sum 4
exceeds 3 and the loop stops) and returns "a a a a" of length 7,
which exceeds budget + length of the final appended unit = 3 + 1: the
single-space joiners between chunks are not counted by the budget
check. -/
theorem c3_counterexample :
    collect_section_text docC3 [patIsMatch] 3 = "a a a a"
    ∧ collectChunks (Node.elem "h2" [] [.text "Match"]) 3
        [Node.elem "p" [] [.text "a"], Node.elem "p" [] [.text "a"],
         Node.elem "p" [] [.text "a"], Node.elem "p" [] [.text "a"]] [] = ["a", "a", "a", "a"]
    ∧ (collect_section_text docC3 [patIsMatch] 3).length = 7
    ∧ ¬ ((collect_section_text docC3 [patIsMatch] 3).length ≤ 3 + ("a" : String).length) :=
  ⟨rfl, rfl, rfl, by decide⟩

/-- C3 amended: for both collectors and every budget, the sum of the
lengths of the appended units never exceeds the budget by more than the
length of the single final appended unit; the returned string can
additionally contain one joiner space per join, so only the unit-length
sum (the quantity the code's budget check measures) satisfies the
claimed bound. -/
theorem c3_amended :
    (∀ (t : Node) (mc : Nat) (els : List Node),
       sumLens (collectChunks t mc els []) ≤ mc + lastLen (collectChunks t mc els []))
    ∧ (∀ (t : Node) (mc : Nat) (els : List Node),
       sumLens (extractChunks t mc els []) ≤ mc + lastLen (extractChunks t mc els [])) :=
  ⟨fun t mc els => collectChunks_budget t mc els [] (Nat.zero_le mc),
   fun t mc els => extractChunks_budget t mc els [] (Nat.zero_le mc)⟩

/-- C4 counterexample: the extractor deduplicates by exact string, not
case-insensitively — on the example text it returns the three matches
"A@EX.FR", "a@ex.fr", "b@ex.org" (uppercase sorting first), not the
claimed two-element case-folded list. -/
theorem c4_counterexample :
    extractEmails emailText = ["A@EX.FR", "a@ex.fr", "b@ex.org"]
    ∧ extractEmails emailText ≠ ["a@ex.fr", "b@ex.org"] :=
  ⟨rfl, by
    intro h
    have h2 := (rfl :
      extractEmails emailText = ["A@EX.FR", "a@ex.fr", "b@ex.org"]).symm.trans h
    exact absurd h2 (by decide)⟩

/-- C4 amended: the email extractor collects every match of the address
pattern, deduplicates by exact string (case-sensitively), and returns
them sorted in code-point lexicographic order; on the example text it
returns exactly ["A@EX.FR", "a@ex.fr", "b@ex.org"]. -/
theorem c4_amended :
    extractEmails emailText = ["A@EX.FR", "a@ex.fr", "b@ex.org"]
    ∧ (∀ text : String,
        (extractEmails text).Sorted pyLeRel
        ∧ (extractEmails text).Nodup
        ∧ ∀ e, e ∈ extractEmails text ↔ e ∈ findEmails text) :=
  ⟨rfl, fun text =>
    ⟨extractEmails_sorted text, extractEmails_nodup text, fun e => extractEmails_mem text e⟩⟩

/-- C8: `parse_int` strips every non-digit character (non-breaking and
ordinary spaces included) and parses the remaining digits, returning
`none` exactly when the input has no digit; on "1 234",
"1 234" and "1234" it returns 1234. -/
theorem c8_parse_int :
    parse_int "1 234" = some 1234
    ∧ parse_int "1\u00A0234" = some 1234
    ∧ parse_int "1234" = some 1234
    ∧ ∀ s : String, (parse_int s = none ↔ ∀ c ∈ s.toList, c.isDigit = false) :=
  ⟨rfl, rfl, rfl, parse_int_none_iff⟩

/-- C10: `parse_html_fields` returns a mapping over exactly the fixed
nineteen extraction keys, and folding such a mapping into a row (as the
driver's `for k, v in parsed.items(): row[k] = v` does) leaves
`source_url`, `g_ta_cod`, every `od_*` column, `http_status` and
`error` unchanged. -/
theorem c10_frame (renv : RegexEnv) (doc : Doc) (f : HtmlFields) (r : Row) :
    (htmlPairs (parse_html_fields renv doc)).map Prod.fst = extractionKeys
    ∧ setAll r (htmlPairs f) "source_url" = r "source_url"
    ∧ setAll r (htmlPairs f) "g_ta_cod" = r "g_ta_cod"
    ∧ setAll r (htmlPairs f) "http_status" = r "http_status"
    ∧ setAll r (htmlPairs f) "error" = r "error"
    ∧ setAll r (htmlPairs f) "od_libelle_formation" = r "od_libelle_formation"
    ∧ setAll r (htmlPairs f) "od_libelle_etablissement" = r "od_libelle_etablissement"
    ∧ setAll r (htmlPairs f) "od_diplome" = r "od_diplome"
    ∧ setAll r (htmlPairs f) "od_secteur" = r "od_secteur"
    ∧ setAll r (htmlPairs f) "od_academie" = r "od_academie"
    ∧ setAll r (htmlPairs f) "od_departement" = r "od_departement"
    ∧ setAll r (htmlPairs f) "od_commune" = r "od_commune"
    ∧ setAll r (htmlPairs f) "od_code_postal" = r "od_code_postal"
    ∧ setAll r (htmlPairs f) "od_uai" = r "od_uai" := by
  refine ⟨rfl, ?_, ?_, ?_, ?_, ?_, ?_, ?_, ?_, ?_, ?_, ?_, ?_, ?_⟩ <;>
    exact setAll_not_mem _ _ _ (by rw [htmlPairs_keys]; decide)

/-- C5 amended: of the three failure shapes, only the fetch timeout
populates the `error` field (with "Timeout"); an HTTP 500 response and
a non-HTML 200 response record their status code in `http_status` but
leave `error` empty — the code has no branch recording an HTTP error
status or the observed content type.  In every case the extraction
columns stay empty and the loop continues with the next URL. -/
theorem c5_error_rows (env : Env) (u : String) :
    (env.fetch u = .timeout →
       processUrl env u "error" = .vStr "Timeout"
       ∧ ∀ k ∈ extractionKeys, processUrl env u k = .vStr "")
    ∧ (∀ ct body, env.fetch u = .resp 500 ct body →
       processUrl env u "error" = .vStr ""
       ∧ processUrl env u "http_status" = .vNum (some 500)
       ∧ ∀ k ∈ extractionKeys, processUrl env u k = .vStr "")
    ∧ (∀ ct body, env.fetch u = .resp 200 ct body →
         substr "text/html" (lowerStr ct) = false →
       processUrl env u "error" = .vStr ""
       ∧ processUrl env u "http_status" = .vNum (some 200)
       ∧ ∀ k ∈ extractionKeys, processUrl env u k = .vStr "")
    ∧ (∀ done rest, done.contains u = false →
       mainLoop env done (u :: rest) = processUrl env u :: mainLoop env done rest) := by
  refine ⟨?_, ?_, ?_, ?_⟩
  · intro h
    rw [processUrl_timeout env u h]
    refine ⟨setF_same _ _ _, ?_⟩
    intro k hk
    fin_cases hk <;>
      rw [setF_ne _ _ _ _ (by decide), rowBase_blank env u _ (by decide) (by decide) (by decide)]
  · intro ct body h
    rw [processUrl_noParse env u ct 500 body h (by simp)]
    refine ⟨?_, setF_same _ _ _, ?_⟩
    · rw [setF_ne _ _ _ _ (by decide),
        rowBase_blank env u _ (by decide) (by decide) (by decide)]
    · intro k hk
      fin_cases hk <;>
        rw [setF_ne _ _ _ _ (by decide),
          rowBase_blank env u _ (by decide) (by decide) (by decide)]
  · intro ct body h hsub
    rw [processUrl_noParse env u ct 200 body h (by simp [hsub])]
    refine ⟨?_, setF_same _ _ _, ?_⟩
    · rw [setF_ne _ _ _ _ (by decide),
        rowBase_blank env u _ (by decide) (by decide) (by decide)]
    · intro k hk
      fin_cases hk <;>
        rw [setF_ne _ _ _ _ (by decide),
          rowBase_blank env u _ (by decide) (by decide) (by decide)]
  · intro done rest h
    rw [mainLoop, if_neg (by rw [h]; exact Bool.false_ne_true)]

/-- C5 witness: in the concrete environment `envErr`, URL "u1" times
out (error "Timeout"), "u2" gets HTTP 500 and "u3" a non-HTML 200
response (both with empty error and recorded status), each leaving the
`places` extraction column empty, and the loop continues past "u1". -/
theorem c5_error_rows_witness :
    processUrl envErr "u1" "error" = .vStr "Timeout"
    ∧ processUrl envErr "u1" "places" = .vStr ""
    ∧ processUrl envErr "u2" "error" = .vStr ""
    ∧ processUrl envErr "u2" "http_status" = .vNum (some 500)
    ∧ processUrl envErr "u3" "error" = .vStr ""
    ∧ processUrl envErr "u3" "http_status" = .vNum (some 200)
    ∧ mainLoop envErr [] ["u1", "u2"]
        = processUrl envErr "u1" :: mainLoop envErr [] ["u2"] := by
  have h1 := (c5_error_rows envErr "u1").1 rfl
  have h2 := (c5_error_rows envErr "u2").2.1 "text/html; charset=utf-8" [] rfl
  have h3 := (c5_error_rows envErr "u3").2.2.1 "application/json" [] rfl (by decide)
  have h4 := (c5_error_rows envErr "u1").2.2.2 [] ["u2"] rfl
  exact ⟨h1.1, h1.2 "places" (by decide), h2.1, h2.2.1, h3.1, h3.2.1, h4⟩

/-- C6: the authoritative (OpenData) values and the page-extracted
values occupy disjoint column sets, so no output column is ever backed
by both; when both sources succeed, every `od_*` column of the emitted
row holds exactly the authoritative value (the extraction step, though
it runs later, cannot overwrite it), a non-empty authoritative value
such as `secteur` appears verbatim in its column, and the extracted
fields fill all nineteen columns the authoritative dataset does not
carry. -/
theorem c6_merge_precedence (env : Env) (u g ct : String) (body : Doc) (fields : HtmlFields)
    (hres : env.resolve u = some g) (hg : g ≠ "")
    (hod : (env.od g).isEmpty = false)
    (hfetch : env.fetch u = .resp 200 ct body)
    (hct : substr "text/html" (lowerStr ct) = true)
    (hparse : env.parse body = .ok fields) :
    (processUrl env u "od_libelle_formation" = .vStr (firstTruthy [(env.od g).lookup "libelle_formation", (env.od g).lookup "libelle_long"]))
    ∧ (processUrl env u "od_libelle_etablissement" = .vStr (firstTruthy [(env.od g).lookup "libelle_etablissement", (env.od g).lookup "etablissement"]))
    ∧ (processUrl env u "od_diplome" = .vStr (firstTruthy [(env.od g).lookup "type_de_formation", (env.od g).lookup "diplome"]))
    ∧ (processUrl env u "od_secteur" = .vStr (firstTruthy [(env.od g).lookup "secteur"]))
    ∧ (processUrl env u "od_academie" = .vStr (firstTruthy [(env.od g).lookup "academie", (env.od g).lookup "nom_academie"]))
    ∧ (processUrl env u "od_departement" = .vStr (firstTruthy [(env.od g).lookup "departement", (env.od g).lookup "nom_departement"]))
    ∧ (processUrl env u "od_commune" = .vStr (firstTruthy [(env.od g).lookup "commune"]))
    ∧ (processUrl env u "od_code_postal" = .vStr (firstTruthy [(env.od g).lookup "code_postal"]))
    ∧ (processUrl env u "od_uai" = .vStr (firstTruthy [(env.od g).lookup "uai"]))
    ∧ (∀ v, (env.od g).lookup "secteur" = some v → v ≠ "" →
       processUrl env u "od_secteur" = .vStr v)
    ∧ (processUrl env u "frais_annee" = .vStr fields.frais_annee)
    ∧ (processUrl env u "frais_boursiers" = .vStr fields.frais_boursiers)
    ∧ (processUrl env u "lv1" = .vStr fields.lv1)
    ∧ (processUrl env u "lv2" = .vStr fields.lv2)
    ∧ (processUrl env u "niveau_francais" = .vStr fields.niveau_francais)
    ∧ (processUrl env u "places" = .vNum fields.places)
    ∧ (processUrl env u "voeux_confirmes" = .vNum fields.voeux_confirmes)
    ∧ (processUrl env u "candidats_postules" = .vNum fields.candidats_postules)
    ∧ (processUrl env u "propositions" = .vNum fields.propositions)
    ∧ (processUrl env u "integres" = .vNum fields.integres)
    ∧ (processUrl env u "onisep_url" = .vStr fields.onisep_url)
    ∧ (processUrl env u "catalogue_url" = .vStr fields.catalogue_url)
    ∧ (processUrl env u "emails_contact" = .vStr fields.emails_contact)
    ∧ (processUrl env u "criteres_analyse" = .vStr fields.criteres_analyse)
    ∧ (processUrl env u "chiffres_acces" = .vStr fields.chiffres_acces)
    ∧ (processUrl env u "poursuites_etudes" = .vStr fields.poursuites_etudes)
    ∧ (processUrl env u "debouches" = .vStr fields.debouches)
    ∧ (processUrl env u "contacter_etablissement" = .vStr fields.contacter_etablissement)
    ∧ (processUrl env u "titre_bloc" = .vStr fields.titre_bloc) := by
  have hfull := processUrl_full env u ct body fields hfetch hct hparse
  have hrb := rowBase_od_vals env u g hres hg hod
  refine ⟨?_, ?_, ?_, ?_, ?_, ?_, ?_, ?_, ?_, ?_, ?_, ?_, ?_, ?_, ?_, ?_, ?_, ?_, ?_, ?_, ?_, ?_, ?_, ?_, ?_, ?_, ?_, ?_, ?_⟩
  · rw [hfull, setAll_not_mem _ _ _ (by rw [htmlPairs_keys]; decide),
      setF_ne _ _ _ _ (by decide), hrb]
    simp [setAll, odFieldWrites, setF]
  · rw [hfull, setAll_not_mem _ _ _ (by rw [htmlPairs_keys]; decide),
      setF_ne _ _ _ _ (by decide), hrb]
    simp [setAll, odFieldWrites, setF]
  · rw [hfull, setAll_not_mem _ _ _ (by rw [htmlPairs_keys]; decide),
      setF_ne _ _ _ _ (by decide), hrb]
    simp [setAll, odFieldWrites, setF]
  · rw [hfull, setAll_not_mem _ _ _ (by rw [htmlPairs_keys]; decide),
      setF_ne _ _ _ _ (by decide), hrb]
    simp [setAll, odFieldWrites, setF]
  · rw [hfull, setAll_not_mem _ _ _ (by rw [htmlPairs_keys]; decide),
      setF_ne _ _ _ _ (by decide), hrb]
    simp [setAll, odFieldWrites, setF]
  · rw [hfull, setAll_not_mem _ _ _ (by rw [htmlPairs_keys]; decide),
      setF_ne _ _ _ _ (by decide), hrb]
    simp [setAll, odFieldWrites, setF]
  · rw [hfull, setAll_not_mem _ _ _ (by rw [htmlPairs_keys]; decide),
      setF_ne _ _ _ _ (by decide), hrb]
    simp [setAll, odFieldWrites, setF]
  · rw [hfull, setAll_not_mem _ _ _ (by rw [htmlPairs_keys]; decide),
      setF_ne _ _ _ _ (by decide), hrb]
    simp [setAll, odFieldWrites, setF]
  · rw [hfull, setAll_not_mem _ _ _ (by rw [htmlPairs_keys]; decide),
      setF_ne _ _ _ _ (by decide), hrb]
    simp [setAll, odFieldWrites, setF]
  · intro v hv hvne
    rw [hfull, setAll_not_mem _ _ _ (by rw [htmlPairs_keys]; decide),
      setF_ne _ _ _ _ (by decide), hrb]
    simp [setAll, odFieldWrites, setF, hv, firstTruthy, hvne]
  · rw [hfull]
    simp [setAll, htmlPairs, setF]
  · rw [hfull]
    simp [setAll, htmlPairs, setF]
  · rw [hfull]
    simp [setAll, htmlPairs, setF]
  · rw [hfull]
    simp [setAll, htmlPairs, setF]
  · rw [hfull]
    simp [setAll, htmlPairs, setF]
  · rw [hfull]
    simp [setAll, htmlPairs, setF]
  · rw [hfull]
    simp [setAll, htmlPairs, setF]
  · rw [hfull]
    simp [setAll, htmlPairs, setF]
  · rw [hfull]
    simp [setAll, htmlPairs, setF]
  · rw [hfull]
    simp [setAll, htmlPairs, setF]
  · rw [hfull]
    simp [setAll, htmlPairs, setF]
  · rw [hfull]
    simp [setAll, htmlPairs, setF]
  · rw [hfull]
    simp [setAll, htmlPairs, setF]
  · rw [hfull]
    simp [setAll, htmlPairs, setF]
  · rw [hfull]
    simp [setAll, htmlPairs, setF]
  · rw [hfull]
    simp [setAll, htmlPairs, setF]
  · rw [hfull]
    simp [setAll, htmlPairs, setF]
  · rw [hfull]
    simp [setAll, htmlPairs, setF]
  · rw [hfull]
    simp [setAll, htmlPairs, setF]

/-- C6 witness: in `envC6` (lookup returns secteur "Public", commune
"Lyon" and a long label; the page parses to `fieldsC6`), the emitted
row carries the authoritative values in the `od_*` columns and the
extracted values in the extraction columns. -/
theorem c6_merge_precedence_witness :
    processUrl envC6 "u" "od_secteur" = .vStr "Public"
    ∧ processUrl envC6 "u" "od_commune" = .vStr "Lyon"
    ∧ processUrl envC6 "u" "od_libelle_formation" = .vStr "Licence Info"
    ∧ processUrl envC6 "u" "frais_annee" = .vStr "3000 €"
    ∧ processUrl envC6 "u" "places" = .vNum (some 25) := by
  have h := c6_merge_precedence envC6 "u" "123" "text/html" [] fieldsC6
    rfl (by decide) rfl rfl (by decide) rfl
  refine ⟨?_, ?_, ?_, ?_, ?_⟩
  · exact h.2.2.2.1.trans (by rfl)
  · exact h.2.2.2.2.2.2.1.trans (by rfl)
  · exact h.1.trans (by rfl)
  · exact h.2.2.2.2.2.2.2.2.2.2.1.trans (by rfl)
  · exact h.2.2.2.2.2.2.2.2.2.2.2.2.2.2.2.1.trans (by rfl)

/-- C7: the section locator is a pure scan of the document-order tag
list: when it returns a node, that node is a heading-level tag with
non-empty text matching some alternative and every earlier tag in
document order fails the test (first match wins); it returns `none`
exactly when no tag passes, and in that case both collectors return the
empty string.  Determinism is immediate: the locator is a function of
the document and the pattern list alone. -/
theorem c7_locator_first_match (doc : Doc) (pats : List (String → Bool))
    (pat : String → Bool) (mc mc2 : Nat) :
    (∀ t rest, locateHeading (allTags doc) (anyPat pats) = some (t, rest) →
       ∃ pre, allTags doc = pre ++ t :: rest
         ∧ headMatches (anyPat pats) t = true
         ∧ ∀ x ∈ pre, headMatches (anyPat pats) x = false)
    ∧ (locateHeading (allTags doc) (anyPat pats) = none ↔
       ∀ x ∈ allTags doc, headMatches (anyPat pats) x = false)
    ∧ (locateHeading (allTags doc) (anyPat pats) = none →
       collect_section_text doc pats mc = "")
    ∧ (∀ t rest, locateHeading (allTags doc) pat = some (t, rest) →
       ∃ pre, allTags doc = pre ++ t :: rest
         ∧ headMatches pat t = true
         ∧ ∀ x ∈ pre, headMatches pat x = false)
    ∧ (locateHeading (allTags doc) pat = none →
       extract_text_after_heading doc pat mc2 = "") := by
  refine ⟨fun t rest h => locateHeading_some _ _ t rest h,
    locateHeading_none _ _, ?_, fun t rest h => locateHeading_some _ _ t rest h, ?_⟩
  · intro h
    unfold collect_section_text
    rw [h]
  · intro h
    unfold extract_text_after_heading
    rw [h]

/-- C7 witness: on `docC7` (a paragraph then an `h2` "Match") the
locator returns the heading with empty remainder, and the theorem
yields the first-match decomposition with the paragraph in the
non-matching prefix. -/
theorem c7_locator_first_match_witness :
    ∃ pre, allTags docC7 = pre ++ (Node.elem "h2" [] [Node.text "Match"]) :: []
      ∧ headMatches (anyPat [patIsMatch]) (Node.elem "h2" [] [Node.text "Match"]) = true
      ∧ ∀ x ∈ pre, headMatches (anyPat [patIsMatch]) x = false :=
  (c7_locator_first_match docC7 [patIsMatch] patIsMatch 4000 400).1 _ _ rfl

/-- C9: running the harvest a second time with resume enabled over the
same input appends nothing: the processed set built from the first
file's `source_url` column covers every deduplicated input URL, so the
second run's file equals the first, has one row per distinct
(stripped) input URL, and contains no duplicate `source_url`. -/
theorem c9_resume_idempotent (env1 env2 : Env) (col : List String) :
    runFile env2 col true (some (runFile env1 col false none)) = runFile env1 col false none
    ∧ (runFile env2 col true (some (runFile env1 col false none))).length
        = (loadUrls col).length
    ∧ ((runFile env2 col true (some (runFile env1 col false none))).map srcOf).Nodup := by
  have h1 : runFile env1 col false none = mainLoop env1 [] (loadUrls col) := rfl
  have hsrc : (mainLoop env1 [] (loadUrls col)).map srcOf = loadUrls col := by
    rw [mainLoop_src]
    simp
  have hskip : mainLoop env2 ((mainLoop env1 [] (loadUrls col)).map srcOf) (loadUrls col)
      = [] := by
    apply mainLoop_nil_done
    intro u hu
    rw [hsrc]
    simp [hu]
  have hmain : runFile env2 col true (some (runFile env1 col false none))
      = runFile env1 col false none := by
    rw [h1]
    show mainLoop env1 [] (loadUrls col)
        ++ mainLoop env2 ((mainLoop env1 [] (loadUrls col)).map srcOf) (loadUrls col)
      = mainLoop env1 [] (loadUrls col)
    rw [hskip, List.append_nil]
  refine ⟨hmain, ?_, ?_⟩
  · rw [hmain, h1]
    have := congrArg List.length hsrc
    rw [List.length_map] at this
    exact this
  · rw [hmain, h1, hsrc]
    exact nodup_dedupFirstGo _ _

/-- C5 counterexample: in `envErr`, URL "u2" receives an HTTP 500
response and URL "u3" a 200 response with a non-HTML body, yet both
emitted rows have an empty `error` field (only the status code is
recorded): the claim that all three failure cases produce a non-empty
error field — the content-type case recording the observed type — is
false for the HTTP-error and content-type cases. -/
theorem c5_counterexample :
    processUrl envErr "u2" "http_status" = .vNum (some 500)
    ∧ processUrl envErr "u2" "error" = .vStr ""
    ∧ processUrl envErr "u3" "http_status" = .vNum (some 200)
    ∧ processUrl envErr "u3" "error" = .vStr "" :=
  ⟨rfl, rfl, rfl, rfl⟩
